import Mathlib

/-!
Shallow embedding of `mysql_info_exporter` (src/main.go), a Prometheus
exporter that periodically queries MySQL targets and republishes storage and
connection statistics as labeled gauges.

Modelling choices:
- A gauge update (`GaugeVec.WithLabelValues(...).Set(v)`) is an `Update`
  carrying the metric name, the declared label names, the label values
  and the value. Gauge values (Go `float64`) are modelled as `ℚ`; every
  value the program ever writes is an integer, so no rounding occurs.
- The Prometheus registry is a map from (metric name, label names, label
  values) to the current value; `Set` is an idempotent overwrite and there
  is no deletion operation.
- SQL result rows are inputs. A row that the code may fail to scan is an
  `Option` (`none` = scan error, which the code logs and skips); a query
  that may fail wholesale is a `QueryResult` (`failed` = the error branch
  that logs and returns).
- The `SHOW PROCESSLIST` dual-schema scan (8 columns vs 9 columns with the
  optional `progress` column) is modelled by recording each raw row's column
  count and whether its values convert to the scan destinations.
-/

/-- Key of a time series in the Prometheus registry: metric name, the label
names declared on the `GaugeVec` (main.go lines 17-52), and the label values
passed to `WithLabelValues`. -/
structure MetricKey where
  metric : String
  labelNames : List String
  labelValues : List String
  deriving DecidableEq, Repr

/-- One `Set` call on a gauge child: the key it addresses and the value. -/
structure Update where
  key : MetricKey
  value : ℚ
  deriving DecidableEq, Repr

/-- The Prometheus registry state: current value per series, `none` when the
series has never been written. -/
def Registry : Type := MetricKey → Option ℚ

/-- Registry with no series, the state before any collection cycle. -/
def emptyRegistry : Registry := fun _ => none

/-- `GaugeVec.WithLabelValues(...).Set(v)`: idempotent overwrite of one key. -/
def Registry.set (reg : Registry) (k : MetricKey) (v : ℚ) : Registry :=
  fun k2 => if k2 = k then some v else reg k2

/-- Apply a list of gauge updates in order. -/
def applyUpdates (reg : Registry) : List Update → Registry
  | [] => reg
  | u :: rest => applyUpdates (Registry.set reg u.key u.value) rest

/-- Label names of `tableSize` (main.go line 22). -/
def tableSizeLabelNames : List String :=
  ["cloud_name", "database", "table", "origin_prometheus"]

/-- Label names of `indexSize` (main.go line 29). -/
def indexSizeLabelNames : List String :=
  ["cloud_name", "database", "table", "origin_prometheus"]

/-- Label names of `tableRows` (main.go line 36). -/
def tableRowsLabelNames : List String :=
  ["cloud_name", "database", "table", "origin_prometheus"]

/-- Label names of `processListCount` (main.go line 43). -/
def processListCountLabelNames : List String :=
  ["cloud_name", "user", "db", "origin_prometheus"]

/-- Label names of `connCount` (main.go line 50). -/
def connCountLabelNames : List String :=
  ["cloud_name", "user", "db", "origin_prometheus"]

/-- A row of the storage query over `information_schema.tables` as scanned in
`collectMetrics` (main.go lines 145-153): `table_rows` scans into a
`sql.NullInt64`, `data_length` and `index_length` into `sql.NullFloat64`
(`none` models SQL NULL / `Valid=false`). -/
structure StorageRow where
  dbName : String
  tableName : String
  tableRowsVal : Option Int
  dataSizeBytes : Option ℚ
  indexSizeBytes : Option ℚ
  deriving DecidableEq, Repr

/-- The three gauge `Set` calls one scanned storage row produces
(main.go lines 155-161). A Go `sql.NullFloat64` whose `Valid` is false has
`Float64 = 0`, hence `Option.getD 0`; `table_rows` is written as 0 when the
`sql.NullInt64` is invalid (the explicit `else` branch, line 160). -/
def storageRowUpdates (cloudName originPrometheus : String) (r : StorageRow) :
    List Update :=
  [ ⟨⟨"mysql_table_size_bytes", tableSizeLabelNames,
      [cloudName, r.dbName, r.tableName, originPrometheus]⟩,
     r.dataSizeBytes.getD 0⟩,
    ⟨⟨"mysql_index_size_bytes", indexSizeLabelNames,
      [cloudName, r.dbName, r.tableName, originPrometheus]⟩,
     r.indexSizeBytes.getD 0⟩,
    ⟨⟨"mysql_table_rows", tableRowsLabelNames,
      [cloudName, r.dbName, r.tableName, originPrometheus]⟩,
     match r.tableRowsVal with
     | some n => (n : ℚ)
     | none => 0⟩ ]

/-- The storage-collection loop body (main.go lines 145-162): rows that fail
to scan (`none`) are logged and skipped, every other row yields its three
updates in order. -/
def collectStorageUpdates (cloudName originPrometheus : String)
    (rows : List (Option StorageRow)) : List Update :=
  rows.flatMap fun r? =>
    match r? with
    | none => []
    | some r => storageRowUpdates cloudName originPrometheus r

/-- A raw `SHOW PROCESSLIST` row before scanning: its column count (8, or 9
with the optional `progress` column, depending on server version), whether
its values convert to the scan destinations, and the nullable `user` and
`db` fields the code actually uses. -/
structure RawProcessRow where
  ncols : Nat
  convertible : Bool
  user : Option String
  db : Option String
  deriving DecidableEq, Repr

/-- `rows.Scan` with `dests` destination arguments on a raw process-list row:
succeeds iff the row has exactly `dests` columns and its values convert,
yielding the `(user, db)` fields the code keeps. -/
def scanProcess (dests : Nat) (r : RawProcessRow) :
    Option (Option String × Option String) :=
  if r.ncols = dests ∧ r.convertible then some (r.user, r.db) else none

/-- The dual-schema scan of one process-list row (main.go lines 180-184):
first attempt the 8-column form, on error fall back to the 9-column form
(with `progress`); `none` means both attempts failed and the row is skipped
by `continue`. -/
def scanProcessRow (r : RawProcessRow) :
    Option (Option String × Option String) :=
  match scanProcess 8 r with
  | some x => some x
  | none => scanProcess 9 r

/-- The `(userStr, dbStr)` group key of each successfully scanned
process-list row, with the sentinels `"UNKNOWN_USER"` / `"UNKNOWN_DB"`
substituted for null fields (main.go lines 186-194); rows failing both scans
contribute nothing. -/
def processPairs (rows : List RawProcessRow) : List (String × String) :=
  rows.flatMap fun r =>
    match scanProcessRow r with
    | none => []
    | some (u, d) => [(u.getD "UNKNOWN_USER", d.getD "UNKNOWN_DB")]

/-- The registry key `processListCount.WithLabelValues(cloudName, user, db,
originPrometheus)` addresses (main.go line 205). -/
def processListKey (cloudName originPrometheus user db : String) : MetricKey :=
  ⟨"mysql_processlist_count", processListCountLabelNames,
   [cloudName, user, db, originPrometheus]⟩

/-- The process-list collection's gauge updates (main.go lines 172-207): the
code counts rows per `(user, db)` in the nested map `userDbCount`, then emits
one `Set` per distinct pair observed, whose value is that group's row count. -/
def processListUpdates (cloudName originPrometheus : String)
    (rows : List RawProcessRow) : List Update :=
  (processPairs rows).dedup.map fun p =>
    ⟨processListKey cloudName originPrometheus p.1 p.2,
     ((processPairs rows).count p : ℚ)⟩

/-- Outcome of a `db.Query` call: the scanned-row stream, or the error branch
(which the code logs and then returns from the collection function). -/
inductive QueryResult (α : Type) where
  | ok (rows : α)
  | failed
  deriving DecidableEq

/-- All gauge updates of one `collectMetrics` cycle (main.go lines 126-208):
if the storage query fails the function returns at once (no updates at all,
the process-list query is not even issued); if `SHOW PROCESSLIST` fails the
storage updates already made stand and the function returns. -/
def collectMetricsUpdates (cloudName originPrometheus : String)
    (storageQ : QueryResult (List (Option StorageRow)))
    (processQ : QueryResult (List RawProcessRow)) : List Update :=
  match storageQ with
  | .failed => []
  | .ok srows =>
    collectStorageUpdates cloudName originPrometheus srows ++
      match processQ with
      | .failed => []
      | .ok prows => processListUpdates cloudName originPrometheus prows

/-- A row of the connection-count query as scanned in `collectConnCount`
(main.go lines 104-110): nullable `db` and `user` (`sql.NullString`) and the
group's count. -/
structure ConnRow where
  dbName : Option String
  userName : Option String
  count : Int
  deriving DecidableEq, Repr

/-- The single gauge `Set` one scanned connection-count row produces
(main.go lines 112-122), with the null sentinels substituted. -/
def connRowUpdate (cloudName originPrometheus : String) (r : ConnRow) : Update :=
  ⟨⟨"mysql_conn_count", connCountLabelNames,
    [cloudName, r.userName.getD "UNKNOWN_USER", r.dbName.getD "UNKNOWN_DB",
     originPrometheus]⟩,
   (r.count : ℚ)⟩

/-- All gauge updates of one `collectConnCount` cycle (main.go lines 89-124):
on query failure the function logs and returns with no update; otherwise each
row that scans produces exactly one `conn_count` update and scan failures are
logged and skipped. -/
def collectConnCountUpdates (cloudName originPrometheus : String)
    (q : QueryResult (List (Option ConnRow))) : List Update :=
  match q with
  | .ok rows =>
    rows.flatMap fun r? =>
      match r? with
      | none => []
      | some r => [connRowUpdate cloudName originPrometheus r]
  | .failed => []

/-- Insert a row into a list kept in descending `count` order; used to model
the `ORDER BY 3 DESC` clause of the connection-count query. -/
def insertConnRowDesc (r : ConnRow) : List ConnRow → List ConnRow
  | [] => [r]
  | s :: rest =>
    if s.count < r.count then r :: s :: rest else s :: insertConnRowDesc r rest

/-- Sort connection-count groups by descending count (`ORDER BY 3 DESC`). -/
def sortConnRowsDesc : List ConnRow → List ConnRow
  | [] => []
  | r :: rest => insertConnRowDesc r (sortConnRowsDesc rest)

/-- Result set of the connection-count query (main.go lines 90-96): the
`(db, user)` groups ordered by descending count and truncated by `LIMIT 20`. -/
def connQueryRows (groups : List ConnRow) : List ConnRow :=
  (sortConnRowsDesc groups).take 20

/-!
Startup model for `main` (main.go lines 210-251). For each configured target
`main` spawns a goroutine that calls `sql.Open` and, on error, `log.Fatalf`
(which terminates the whole process with exit status 1); `main` itself
proceeds, with no synchronization, to `http.ListenAndServe`. The two
concurrent threads are modelled explicitly, with a schedule choosing the
interleaving.
-/

/-- The two threads of the startup model: `main` (which starts the HTTP
listener) and the per-target goroutine (which opens the database connection
and dies fatally on error). -/
inductive Thread where
  | main
  | worker
  deriving DecidableEq, Repr

/-- Observable process state during startup. `exitCode = some c` means the
process has terminated with status `c`; nothing runs after that. -/
structure ProcState where
  listenerStarted : Bool
  exitCode : Option Nat
  deriving DecidableEq, Repr

/-- One scheduled step of a thread. `main`'s next action is
`http.ListenAndServe` (main.go line 250); the worker goroutine's next action
is `sql.Open` followed by the error check whose `log.Fatalf` exits the
process with status 1 (main.go lines 223-226). A terminated process takes no
further steps. -/
def stepThread (openFails : Bool) (s : ProcState) : Thread → ProcState
  | .main =>
    if s.exitCode.isSome then s else { s with listenerStarted := true }
  | .worker =>
    if s.exitCode.isSome then s
    else if openFails then { s with exitCode := some 1 } else s

/-- Run the startup under a given interleaving of the two threads, beginning
with no listener and the process alive. -/
def runStartup (openFails : Bool) (sched : List Thread) : ProcState :=
  sched.foldl (stepThread openFails) ⟨false, none⟩

/-- Spec section 8 scenario: the storage query of target "shard1" (origin
"prod") returns one row with `table_schema="app"`, `table_name="users"`,
`table_rows=100`, `data_length=2048`, `index_length=512`. -/
def shard1StorageRows : List (Option StorageRow) :=
  [some ⟨"app", "users", some 100, some 2048, some 512⟩]

/-- Registry state after one storage collection cycle for the "shard1"
scenario, starting from the empty registry. -/
def shard1Registry : Registry :=
  applyUpdates emptyRegistry (collectStorageUpdates "shard1" "prod" shard1StorageRows)

/-- Spec section 8 scenario for the top-20 truncation: 25 distinct
connection-count groups with counts 1..25. -/
def top20ScenarioGroups : List ConnRow :=
  (List.range 25).map fun i => ⟨some "db", some "u", (i : Int) + 1⟩

/-!
Registry lemmas shared by the claims: what `applyUpdates` does at a single
key is decided by the last update in the list touching that key.
-/

/-- The last value written to key `k` by a list of updates, if any. -/
def lastWrite (k : MetricKey) : List Update → Option ℚ
  | [] => none
  | u :: rest =>
    match lastWrite k rest with
    | some v => some v
    | none => if u.key = k then some u.value else none

theorem applyUpdates_apply_of_lastWrite_none {k : MetricKey} :
    ∀ {us : List Update}, lastWrite k us = none →
      ∀ reg : Registry, applyUpdates reg us k = reg k := by
  intro us
  induction us with
  | nil => intro _ reg; rfl
  | cons u rest ih =>
    intro h reg
    simp only [lastWrite] at h
    cases hrest : lastWrite k rest with
    | some w => rw [hrest] at h; cases h
    | none =>
      rw [hrest] at h
      simp only [applyUpdates]
      rw [ih hrest]
      simp only [Registry.set]
      rw [if_neg]
      intro hkk
      rw [if_pos hkk.symm] at h
      cases h

theorem applyUpdates_apply_of_lastWrite_some {k : MetricKey} {v : ℚ} :
    ∀ {us : List Update}, lastWrite k us = some v →
      ∀ reg : Registry, applyUpdates reg us k = some v := by
  intro us
  induction us with
  | nil => intro h; cases h
  | cons u rest ih =>
    intro h reg
    simp only [lastWrite] at h
    simp only [applyUpdates]
    cases hrest : lastWrite k rest with
    | some w =>
      rw [hrest] at h
      exact ih (hrest.trans h) _
    | none =>
      rw [hrest] at h
      rw [applyUpdates_apply_of_lastWrite_none hrest]
      simp only [Registry.set]
      by_cases hk : u.key = k
      · rw [if_pos hk.symm]
        rw [if_pos hk] at h
        exact h
      · rw [if_neg hk] at h
        cases h

theorem lastWrite_eq_none_of_not_mem {k : MetricKey} :
    ∀ {us : List Update}, k ∉ us.map (fun u => u.key) → lastWrite k us = none := by
  intro us
  induction us with
  | nil => intro _; rfl
  | cons u rest ih =>
    intro h
    simp only [List.map_cons, List.mem_cons] at h
    push_neg at h
    simp only [lastWrite, ih h.2]
    rw [if_neg (fun he => h.1 he.symm)]

theorem applyUpdates_apply_of_not_mem {k : MetricKey} {us : List Update}
    (h : k ∉ us.map (fun u => u.key)) (reg : Registry) :
    applyUpdates reg us k = reg k :=
  applyUpdates_apply_of_lastWrite_none (lastWrite_eq_none_of_not_mem h) reg

theorem lastWrite_mem {k : MetricKey} {v : ℚ} :
    ∀ {us : List Update}, lastWrite k us = some v →
      ∃ u ∈ us, u.key = k ∧ u.value = v := by
  intro us
  induction us with
  | nil => intro h; cases h
  | cons u rest ih =>
    intro h
    simp only [lastWrite] at h
    cases hrest : lastWrite k rest with
    | some w =>
      rw [hrest] at h
      obtain ⟨u2, hm, hk, hv⟩ := ih (hrest.trans (by simpa using h))
      exact ⟨u2, List.mem_cons_of_mem _ hm, hk, hv⟩
    | none =>
      rw [hrest] at h
      by_cases hk : u.key = k
      · rw [if_pos hk] at h
        exact ⟨u, List.mem_cons_self _ _, hk, Option.some.inj h⟩
      · rw [if_neg hk] at h
        cases h

theorem lastWrite_of_nodup_keys {us : List Update}
    (hnd : (us.map (fun u => u.key)).Nodup) {u0 : Update} (hm : u0 ∈ us) :
    lastWrite u0.key us = some u0.value := by
  induction us with
  | nil => cases hm
  | cons u rest ih =>
    simp only [List.map_cons, List.nodup_cons] at hnd
    rcases List.mem_cons.1 hm with he | hr
    · subst he
      simp only [lastWrite]
      cases hrest : lastWrite u0.key rest with
      | some w =>
        obtain ⟨u2, hm2, hk2, _⟩ := lastWrite_mem hrest
        exact absurd (hk2 ▸ List.mem_map_of_mem (fun u => u.key) hm2) hnd.1
      | none => simp
    · simp only [lastWrite, ih hnd.2 hr]

theorem mem_insertConnRowDesc {x r : ConnRow} :
    ∀ {l : List ConnRow}, x ∈ insertConnRowDesc r l ↔ x = r ∨ x ∈ l := by
  intro l
  induction l with
  | nil => simp [insertConnRowDesc]
  | cons s rest ih =>
    simp only [insertConnRowDesc]
    by_cases hc : s.count < r.count
    · rw [if_pos hc]
      simp [List.mem_cons]
    · rw [if_neg hc]
      simp only [List.mem_cons, ih]
      tauto

theorem mem_sortConnRowsDesc {x : ConnRow} :
    ∀ {l : List ConnRow}, x ∈ sortConnRowsDesc l ↔ x ∈ l := by
  intro l
  induction l with
  | nil => simp [sortConnRowsDesc]
  | cons r rest ih =>
    simp only [sortConnRowsDesc, mem_insertConnRowDesc, ih, List.mem_cons]

theorem pairwise_insertConnRowDesc {r : ConnRow} :
    ∀ {l : List ConnRow},
      l.Pairwise (fun a b => b.count ≤ a.count) →
      (insertConnRowDesc r l).Pairwise (fun a b => b.count ≤ a.count) := by
  intro l
  induction l with
  | nil => intro _; simp [insertConnRowDesc]
  | cons s rest ih =>
    intro h
    rw [List.pairwise_cons] at h
    simp only [insertConnRowDesc]
    by_cases hc : s.count < r.count
    · rw [if_pos hc]
      rw [List.pairwise_cons]
      constructor
      · intro b hb
        rcases List.mem_cons.1 hb with he | hr2
        · exact he ▸ le_of_lt hc
        · exact le_trans (h.1 b hr2) (le_of_lt hc)
      · exact List.pairwise_cons.2 h
    · rw [if_neg hc]
      rw [List.pairwise_cons]
      constructor
      · intro b hb
        rcases mem_insertConnRowDesc.1 hb with he | hr2
        · exact he ▸ le_of_not_lt hc
        · exact h.1 b hr2
      · exact ih h.2

theorem pairwise_sortConnRowsDesc :
    ∀ (l : List ConnRow),
      (sortConnRowsDesc l).Pairwise (fun a b => b.count ≤ a.count) := by
  intro l
  induction l with
  | nil => simp [sortConnRowsDesc]
  | cons r rest ih => exact pairwise_insertConnRowDesc ih

theorem processListKey_inj {c o u1 d1 u2 d2 : String} :
    processListKey c o u1 d1 = processListKey c o u2 d2 ↔ u1 = u2 ∧ d1 = d2 := by
  simp [processListKey]

theorem filter_eq_singleton_of_nodup {α : Type} [DecidableEq α] :
    ∀ {l : List α}, l.Nodup → ∀ {a : α}, a ∈ l →
      l.filter (fun x => x = a) = [a] := by
  intro l
  induction l with
  | nil => intro _ a ha; cases ha
  | cons b rest ih =>
    intro hnd a ha
    rw [List.nodup_cons] at hnd
    rcases List.mem_cons.1 ha with he | hr
    · subst he
      rw [List.filter_cons_of_pos (by simp)]
      rw [List.filter_eq_nil_iff.2 (fun x hx => by simp; rintro rfl; exact hnd.1 hx)]
    · have hba : b ≠ a := fun he2 => hnd.1 (he2 ▸ hr)
      rw [List.filter_cons_of_neg (by simp [hba])]
      exact ih hnd.2 hr

theorem filter_eq_nil_of_not_mem {α : Type} [DecidableEq α] {l : List α} {a : α}
    (ha : a ∉ l) : l.filter (fun x => x = a) = [] :=
  List.filter_eq_nil_iff.2 fun x hx => by simp; rintro rfl; exact ha hx

theorem exitCode_stays {sched : List Thread} :
    ∀ {s : ProcState}, s.exitCode = some 1 →
      (sched.foldl (stepThread true) s).exitCode = some 1 := by
  induction sched with
  | nil => intro s h; exact h
  | cons t rest ih =>
    intro s h
    have hstep : stepThread true s t = s := by
      cases t with
      | main => simp [stepThread, h]
      | worker => simp [stepThread, h]
    simp only [List.foldl_cons, hstep]
    exact ih h

theorem exitCode_after_worker {sched : List Thread} :
    ∀ {s : ProcState}, Thread.worker ∈ sched → s.exitCode = none →
      (sched.foldl (stepThread true) s).exitCode = some 1 := by
  induction sched with
  | nil => intro s h; cases h
  | cons t rest ih =>
    intro s hm h
    cases t with
    | worker =>
      have hstep : stepThread true s .worker = { s with exitCode := some 1 } := by
        simp [stepThread, h]
      simp only [List.foldl_cons, hstep]
      exact exitCode_stays rfl
    | main =>
      have hrest : Thread.worker ∈ rest := by
        rcases List.mem_cons.1 hm with he | hr
        · cases he
        · exact hr
      have hstep : stepThread true s .main = { s with listenerStarted := true } := by
        simp [stepThread, h]
      simp only [List.foldl_cons, hstep]
      exact ih hrest h

theorem processUpdatesAux_filter (c o : String) (ps : List (String × String))
    (u d : String) :
    (ps.dedup.map (fun p =>
        (⟨processListKey c o p.1 p.2, (ps.count p : ℚ)⟩ : Update))).filter
        (fun up => up.key = processListKey c o u d) =
      (ps.dedup.filter (fun x => x = (u, d))).map (fun p =>
        (⟨processListKey c o p.1 p.2, (ps.count p : ℚ)⟩ : Update)) := by
  rw [List.filter_map]
  congr 1
  apply List.filter_congr
  intro x _
  simp only [Function.comp_apply]
  apply decide_eq_decide.mpr
  constructor
  · intro hk
    have h2 := processListKey_inj.1 hk
    exact Prod.ext_iff.2 h2
  · rintro rfl
    rfl

theorem processUpdatesAux_nodup_keys (c o : String) (ps : List (String × String)) :
    ((ps.dedup.map (fun p =>
        (⟨processListKey c o p.1 p.2, (ps.count p : ℚ)⟩ : Update))).map
      (fun up => up.key)).Nodup := by
  rw [List.map_map]
  apply List.Nodup.map ?_ (List.nodup_dedup ps)
  intro x y hxy
  simp only [Function.comp_apply] at hxy
  exact Prod.ext_iff.2 (processListKey_inj.1 hxy)

theorem connCollect_map_some (c o : String) :
    ∀ l : List ConnRow,
      collectConnCountUpdates c o (.ok (l.map some)) = l.map (connRowUpdate c o) := by
  intro l
  induction l with
  | nil => rfl
  | cons r rest ih =>
    simp only [collectConnCountUpdates, List.map_cons, List.flatMap_cons] at ih ⊢
    rw [ih]
    rfl

/-- C1 counterexample: in the "shard1" scenario the registry does not contain
the series `table_size_bytes{cloud_name,database,table,origin}` at the claimed
label values — neither under the claim's label names nor under the declared
ones — because the code registers the gauge as `mysql_table_size_bytes` with
final label name `origin_prometheus` (main.go lines 18-22). -/
theorem shard1_spec_names_absent :
    shard1Registry ⟨"table_size_bytes", ["cloud_name", "database", "table", "origin"],
      ["shard1", "app", "users", "prod"]⟩ = none ∧
    shard1Registry ⟨"table_size_bytes", tableSizeLabelNames,
      ["shard1", "app", "users", "prod"]⟩ = none := by
  decide

/-- C1 (amended): after one storage collection cycle of the "shard1"/"prod"
scenario, the registry holds 2048, 512 and 100 for the one row's table size,
index size and row count — under the metric names `mysql_table_size_bytes`,
`mysql_index_size_bytes`, `mysql_table_rows` and label names `cloud_name`,
`database`, `table`, `origin_prometheus` that the code declares. -/
theorem shard1_scenario_registry :
    shard1Registry ⟨"mysql_table_size_bytes", tableSizeLabelNames,
      ["shard1", "app", "users", "prod"]⟩ = some 2048 ∧
    shard1Registry ⟨"mysql_index_size_bytes", indexSizeLabelNames,
      ["shard1", "app", "users", "prod"]⟩ = some 512 ∧
    shard1Registry ⟨"mysql_table_rows", tableRowsLabelNames,
      ["shard1", "app", "users", "prod"]⟩ = some 100 := by
  decide

/-- C3 counterexample: with a target whose connection open fails, the
interleaving that schedules `main` before the failing goroutine reaches a
state where the HTTP listener has started and the process then exits with
status 1 — the claimed "terminates before the HTTP listener starts" does not
hold of this execution, because `sql.Open` and its fatal error check run in a
goroutine that is not synchronized with `http.ListenAndServe`. -/
theorem open_failure_listener_race :
    (runStartup true [Thread.main, Thread.worker]).listenerStarted = true ∧
    (runStartup true [Thread.main, Thread.worker]).exitCode = some 1 := by
  decide

/-- C3 (amended): if opening the database connection for a configured target
fails, then in every startup interleaving that runs that target's goroutine
the whole process terminates with exit status 1 (non-zero); the HTTP listener
may or may not have started first, since nothing orders the goroutine's fatal
exit before `http.ListenAndServe`. -/
theorem open_failure_exits_nonzero (sched : List Thread)
    (h : Thread.worker ∈ sched) :
    (runStartup true sched).exitCode = some 1 ∧
    (runStartup true sched).exitCode ≠ some 0 := by
  have h1 : (runStartup true sched).exitCode = some 1 :=
    exitCode_after_worker h rfl
  exact ⟨h1, by rw [h1]; decide⟩

/-- C3 witness: the schedule that runs only the failing goroutine ends with
exit status 1. -/
theorem open_failure_exits_nonzero_witness :
    (runStartup true [Thread.worker]).exitCode = some 1 ∧
    (runStartup true [Thread.worker]).exitCode ≠ some 0 :=
  open_failure_exits_nonzero [Thread.worker] (by decide)

/-- C4: when the storage query fails, `collectMetrics` returns at once and
the cycle makes no gauge update at all (the registry is left unchanged,
whatever the process-list query would have returned); when the
connection-count query fails, `collectConnCount` likewise returns with no
update. The enclosing loops run the next cycle unconditionally, so only this
cycle is skipped. -/
theorem query_failure_skips_cycle (cloudName originPrometheus : String)
    (reg : Registry) (processQ : QueryResult (List RawProcessRow)) :
    applyUpdates reg (collectMetricsUpdates cloudName originPrometheus .failed processQ) = reg ∧
    applyUpdates reg (collectConnCountUpdates cloudName originPrometheus .failed) = reg :=
  ⟨rfl, rfl⟩

/-- C8: every collection's registry effect is a list of idempotent key
overwrites, so applying one cycle's updates twice (the same underlying query
results) yields exactly the registry of applying them once — no double
counting and no duplicated series; this holds for `collectMetrics` (storage
and process-list) and for `collectConnCount`. -/
theorem collection_idempotent (cloudName originPrometheus : String)
    (reg : Registry) (storageQ : QueryResult (List (Option StorageRow)))
    (processQ : QueryResult (List RawProcessRow))
    (connQ : QueryResult (List (Option ConnRow))) :
    applyUpdates (applyUpdates reg (collectMetricsUpdates cloudName originPrometheus storageQ processQ))
        (collectMetricsUpdates cloudName originPrometheus storageQ processQ) =
      applyUpdates reg (collectMetricsUpdates cloudName originPrometheus storageQ processQ) ∧
    applyUpdates (applyUpdates reg (collectConnCountUpdates cloudName originPrometheus connQ))
        (collectConnCountUpdates cloudName originPrometheus connQ) =
      applyUpdates reg (collectConnCountUpdates cloudName originPrometheus connQ) := by
  have key : ∀ (us : List Update) (r : Registry),
      applyUpdates (applyUpdates r us) us = applyUpdates r us := by
    intro us r
    funext k
    cases h : lastWrite k us with
    | some v =>
      rw [applyUpdates_apply_of_lastWrite_some h,
        applyUpdates_apply_of_lastWrite_some h]
    | none =>
      rw [applyUpdates_apply_of_lastWrite_none h,
        applyUpdates_apply_of_lastWrite_none h]
  exact ⟨key _ _, key _ _⟩

/-- C9: no operation deletes a registry entry. A key absent from a cycle's
updates keeps its exact previous state (so a never-written key stays absent
— the empty registry maps every key to `none` — and a written key keeps its
last written value), and a key that is present (`isSome`) stays present after
any list of updates. -/
theorem registry_never_deletes (reg : Registry) (us : List Update) (k : MetricKey) :
    emptyRegistry k = none ∧
    (k ∉ us.map (fun u => u.key) → applyUpdates reg us k = reg k) ∧
    ((reg k).isSome → (applyUpdates reg us k).isSome) := by
  refine ⟨rfl, fun h => applyUpdates_apply_of_not_mem h reg, fun h => ?_⟩
  cases hl : lastWrite k us with
  | some v => rw [applyUpdates_apply_of_lastWrite_some hl]; rfl
  | none => rw [applyUpdates_apply_of_lastWrite_none hl]; exact h

/-- C9 witness: a key written earlier survives an update list that does not
mention it, both in value and in presence. -/
theorem registry_never_deletes_witness :
    applyUpdates (Registry.set emptyRegistry ⟨"m", ["l"], ["a"]⟩ 5)
        [⟨⟨"n", ["l"], ["b"]⟩, 7⟩] ⟨"m", ["l"], ["a"]⟩ =
      Registry.set emptyRegistry ⟨"m", ["l"], ["a"]⟩ 5 ⟨"m", ["l"], ["a"]⟩ ∧
    (applyUpdates (Registry.set emptyRegistry ⟨"m", ["l"], ["a"]⟩ 5)
        [⟨⟨"n", ["l"], ["b"]⟩, 7⟩] ⟨"m", ["l"], ["a"]⟩).isSome :=
  ⟨(registry_never_deletes (Registry.set emptyRegistry ⟨"m", ["l"], ["a"]⟩ 5)
      [⟨⟨"n", ["l"], ["b"]⟩, 7⟩] ⟨"m", ["l"], ["a"]⟩).2.1 (by decide),
   (registry_never_deletes (Registry.set emptyRegistry ⟨"m", ["l"], ["a"]⟩ 5)
      [⟨⟨"n", ["l"], ["b"]⟩, 7⟩] ⟨"m", ["l"], ["a"]⟩).2.2 (by decide)⟩

/-- C10: a storage row whose `data_length` or `index_length` is SQL NULL is
not skipped — it still yields its three updates — and the corresponding size
gauge is set to 0, because the invalid `sql.NullFloat64`'s `Float64` field is
the zero value; the null-to-zero defaulting the spec states for `table_rows`
thus applies to both size gauges as well. -/
theorem storage_null_sizes_default_zero (cloudName originPrometheus : String)
    (r : StorageRow) :
    (storageRowUpdates cloudName originPrometheus r).length = 3 ∧
    (r.dataSizeBytes = none →
      ∃ u ∈ storageRowUpdates cloudName originPrometheus r,
        u.key.metric = "mysql_table_size_bytes" ∧ u.value = 0) ∧
    (r.indexSizeBytes = none →
      ∃ u ∈ storageRowUpdates cloudName originPrometheus r,
        u.key.metric = "mysql_index_size_bytes" ∧ u.value = 0) := by
  refine ⟨rfl, fun h => ?_, fun h => ?_⟩
  · exact ⟨⟨⟨"mysql_table_size_bytes", tableSizeLabelNames,
        [cloudName, r.dbName, r.tableName, originPrometheus]⟩, r.dataSizeBytes.getD 0⟩,
      by simp [storageRowUpdates], rfl, by simp [h]⟩
  · exact ⟨⟨⟨"mysql_index_size_bytes", indexSizeLabelNames,
        [cloudName, r.dbName, r.tableName, originPrometheus]⟩, r.indexSizeBytes.getD 0⟩,
      by simp [storageRowUpdates], rfl, by simp [h]⟩

/-- C10 witness: a row with NULL `data_length` and `index_length` still
produces three updates, with both size gauges set to 0. -/
theorem storage_null_sizes_default_zero_witness :
    (storageRowUpdates "c" "o" ⟨"a", "b", some 1, none, none⟩).length = 3 ∧
    (∃ u ∈ storageRowUpdates "c" "o" ⟨"a", "b", some 1, none, none⟩,
      u.key.metric = "mysql_table_size_bytes" ∧ u.value = 0) ∧
    (∃ u ∈ storageRowUpdates "c" "o" ⟨"a", "b", some 1, none, none⟩,
      u.key.metric = "mysql_index_size_bytes" ∧ u.value = 0) :=
  ⟨(storage_null_sizes_default_zero "c" "o" ⟨"a", "b", some 1, none, none⟩).1,
   (storage_null_sizes_default_zero "c" "o" ⟨"a", "b", some 1, none, none⟩).2.1 rfl,
   (storage_null_sizes_default_zero "c" "o" ⟨"a", "b", some 1, none, none⟩).2.2 rfl⟩

/-- C2: every scanned storage row produces exactly three gauge updates — in
order `mysql_table_size_bytes`, `mysql_index_size_bytes`, `mysql_table_rows`
— all keyed by the identical label tuple (`cloud_name` = target display name,
`database` = `table_schema`, `table` = `table_name`, `origin_prometheus` =
target origin label); the `table_rows` value written is 0 when the source
field is NULL; and over any result set whose rows all scan, the cycle
performs exactly three updates per row. -/
theorem storage_row_three_updates (cloudName originPrometheus : String)
    (r : StorageRow) (rows : List (Option StorageRow)) :
    (storageRowUpdates cloudName originPrometheus r).length = 3 ∧
    (storageRowUpdates cloudName originPrometheus r).map (fun u => u.key.metric) =
      ["mysql_table_size_bytes", "mysql_index_size_bytes", "mysql_table_rows"] ∧
    (∀ u ∈ storageRowUpdates cloudName originPrometheus r,
      u.key.labelNames = ["cloud_name", "database", "table", "origin_prometheus"] ∧
      u.key.labelValues = [cloudName, r.dbName, r.tableName, originPrometheus]) ∧
    (r.tableRowsVal = none →
      (storageRowUpdates cloudName originPrometheus r).map (fun u => u.value) =
        [r.dataSizeBytes.getD 0, r.indexSizeBytes.getD 0, 0]) ∧
    ((∀ x ∈ rows, x.isSome) →
      (collectStorageUpdates cloudName originPrometheus rows).length = 3 * rows.length) := by
  refine ⟨rfl, rfl, ?_, ?_, ?_⟩
  · intro u hu
    simp only [storageRowUpdates, List.mem_cons, List.not_mem_nil, or_false] at hu
    rcases hu with h | h | h <;> subst h <;> exact ⟨rfl, rfl⟩
  · intro h
    simp [storageRowUpdates, h]
  · induction rows with
    | nil => intro _; rfl
    | cons x rest ih =>
      intro h
      cases x with
      | none => exact absurd (h none (List.mem_cons_self _ _)) (by simp)
      | some r2 =>
        have hcons : collectStorageUpdates cloudName originPrometheus (some r2 :: rest) =
            storageRowUpdates cloudName originPrometheus r2 ++
              collectStorageUpdates cloudName originPrometheus rest := by
          simp [collectStorageUpdates]
        rw [hcons, List.length_append,
          ih (fun y hy => h y (List.mem_cons_of_mem _ hy))]
        simp only [storageRowUpdates, List.length_cons, List.length_nil]
        ring

/-- C2 witness: a concrete row with NULL `table_rows` writes the values
(data, index, 0), and a one-row result set yields exactly three updates. -/
theorem storage_row_three_updates_witness :
    (storageRowUpdates "c" "o" ⟨"a", "b", none, some 7, some 8⟩).map (fun u => u.value) =
      [7, 8, 0] ∧
    (collectStorageUpdates "c" "o" [some ⟨"a", "b", none, some 7, some 8⟩]).length = 3 :=
  ⟨(storage_row_three_updates "c" "o" ⟨"a", "b", none, some 7, some 8⟩
      [some ⟨"a", "b", none, some 7, some 8⟩]).2.2.2.1 rfl,
   (storage_row_three_updates "c" "o" ⟨"a", "b", none, some 7, some 8⟩
      [some ⟨"a", "b", none, some 7, some 8⟩]).2.2.2.2 (by decide)⟩

/-- C5: the process-list scan of each row first attempts the 8-column form:
when the row has 8 columns and converts, that attempt succeeds and the row is
counted exactly once through it (one group pair is contributed); when the
8-column attempt fails the code falls back to the 9-column form (with the
optional `progress` column); and a row failing both attempts is skipped,
contributing nothing to the counts. -/
theorem processlist_dual_schema (r : RawProcessRow) (pre post : List RawProcessRow) :
    (r.ncols = 8 ∧ r.convertible →
      scanProcess 8 r = some (r.user, r.db) ∧
      scanProcessRow r = scanProcess 8 r ∧
      processPairs (pre ++ r :: post) =
        processPairs pre ++
          [(r.user.getD "UNKNOWN_USER", r.db.getD "UNKNOWN_DB")] ++ processPairs post) ∧
    (scanProcess 8 r = none → scanProcessRow r = scanProcess 9 r) ∧
    (scanProcess 8 r = none ∧ scanProcess 9 r = none →
      processPairs (pre ++ r :: post) = processPairs pre ++ processPairs post) := by
  refine ⟨fun h => ?_, fun h => ?_, fun h => ?_⟩
  · have h8 : scanProcess 8 r = some (r.user, r.db) := by
      simp [scanProcess, h.1, h.2]
    refine ⟨h8, ?_, ?_⟩
    · simp [scanProcessRow, h8]
    · simp [processPairs, List.flatMap_append, List.flatMap_cons, scanProcessRow, h8]
  · simp [scanProcessRow, h]
  · simp [processPairs, List.flatMap_append, List.flatMap_cons, scanProcessRow,
      h.1, h.2]

/-- C5 witness: an 8-column row missing the optional trailing field is
counted exactly once; a 7-column row fails the 8-column attempt and falls to
the 9-column one, and failing both it contributes nothing. -/
theorem processlist_dual_schema_witness :
    processPairs ([] ++ (⟨8, true, none, some "appdb"⟩ : RawProcessRow) :: []) =
      processPairs [] ++ [("UNKNOWN_USER", "appdb")] ++ processPairs [] ∧
    scanProcessRow ⟨7, true, none, none⟩ = scanProcess 9 ⟨7, true, none, none⟩ ∧
    processPairs ([] ++ (⟨7, true, none, none⟩ : RawProcessRow) :: []) =
      processPairs [] ++ processPairs [] :=
  ⟨((processlist_dual_schema ⟨8, true, none, some "appdb"⟩ [] []).1 (by decide)).2.2,
   (processlist_dual_schema ⟨7, true, none, none⟩ [] []).2.1 (by decide),
   (processlist_dual_schema ⟨7, true, none, none⟩ [] []).2.2 (by decide)⟩

/-- C6: process-list collection groups the scanned rows by `(user, db)` with
the sentinels substituted for NULL fields and no label ever omitted (every
update carries the metric `mysql_processlist_count` and a full 4-value label
tuple), and emits exactly one gauge update per distinct pair observed in the
cycle, whose value is that group's row count, overwriting any prior registry
value at that key; pairs not observed get no update. -/
theorem processlist_grouping (cloudName originPrometheus : String)
    (rows : List RawProcessRow) (reg : Registry) (user db : String) :
    (∀ up ∈ processListUpdates cloudName originPrometheus rows,
      up.key.metric = "mysql_processlist_count" ∧
      up.key.labelNames = ["cloud_name", "user", "db", "origin_prometheus"] ∧
      up.key.labelValues.length = 4) ∧
    ((user, db) ∈ processPairs rows →
      (processListUpdates cloudName originPrometheus rows).filter
          (fun up => up.key = processListKey cloudName originPrometheus user db) =
        [⟨processListKey cloudName originPrometheus user db,
          ((processPairs rows).count (user, db) : ℚ)⟩] ∧
      applyUpdates reg (processListUpdates cloudName originPrometheus rows)
          (processListKey cloudName originPrometheus user db) =
        some ((processPairs rows).count (user, db) : ℚ)) ∧
    ((user, db) ∉ processPairs rows →
      (processListUpdates cloudName originPrometheus rows).filter
          (fun up => up.key = processListKey cloudName originPrometheus user db) = []) := by
  have hupdates : processListUpdates cloudName originPrometheus rows =
      (processPairs rows).dedup.map (fun p =>
        (⟨processListKey cloudName originPrometheus p.1 p.2,
          ((processPairs rows).count p : ℚ)⟩ : Update)) := rfl
  refine ⟨?_, fun hmem => ⟨?_, ?_⟩, fun hmem => ?_⟩
  · intro up hup
    rw [hupdates] at hup
    obtain ⟨p, _, rfl⟩ := List.mem_map.1 hup
    exact ⟨rfl, rfl, rfl⟩
  · rw [hupdates, processUpdatesAux_filter,
      filter_eq_singleton_of_nodup (List.nodup_dedup _) (List.mem_dedup.2 hmem)]
    rfl
  · have hlw := lastWrite_of_nodup_keys
      (processUpdatesAux_nodup_keys cloudName originPrometheus (processPairs rows))
      (List.mem_map_of_mem (fun p =>
          (⟨processListKey cloudName originPrometheus p.1 p.2,
            ((processPairs rows).count p : ℚ)⟩ : Update))
        (List.mem_dedup.2 hmem))
    rw [hupdates]
    exact applyUpdates_apply_of_lastWrite_some hlw reg
  · rw [hupdates, processUpdatesAux_filter,
      filter_eq_nil_of_not_mem (fun hc => hmem (List.mem_dedup.1 hc))]
    rfl

/-- C6 witness: three rows where `(alice, db1)` appears twice and one row has
both fields NULL: the registry gets the group count 2 at the `(alice, db1)`
key, and an unobserved pair gets no update. -/
theorem processlist_grouping_witness :
    applyUpdates emptyRegistry
        (processListUpdates "c" "o"
          [⟨8, true, some "alice", some "db1"⟩, ⟨8, true, some "alice", some "db1"⟩,
           ⟨9, true, none, none⟩])
        (processListKey "c" "o" "alice" "db1") =
      some ((processPairs
          [⟨8, true, some "alice", some "db1"⟩, ⟨8, true, some "alice", some "db1"⟩,
           ⟨9, true, none, none⟩]).count ("alice", "db1") : ℚ) ∧
    (processListUpdates "c" "o"
        [⟨8, true, some "alice", some "db1"⟩, ⟨8, true, some "alice", some "db1"⟩,
         ⟨9, true, none, none⟩]).filter
        (fun up => up.key = processListKey "c" "o" "bob" "db1") = [] :=
  ⟨((processlist_grouping "c" "o"
      [⟨8, true, some "alice", some "db1"⟩, ⟨8, true, some "alice", some "db1"⟩,
       ⟨9, true, none, none⟩] emptyRegistry "alice" "db1").2.1 (by decide)).2,
   (processlist_grouping "c" "o"
      [⟨8, true, some "alice", some "db1"⟩, ⟨8, true, some "alice", some "db1"⟩,
       ⟨9, true, none, none⟩] emptyRegistry "bob" "db1").2.2 (by decide)⟩

/-- C7: the connection-count query returns the `(db, user)` groups ordered by
descending count and truncated to 20, so at most 20 rows come back; each
returned row produces exactly one `conn_count` update at
(`cloud_name`, `user`, `db`, `origin_prometheus`) — with the NULL sentinels
substituted — set to that group's count, so at most 20 keys are updated in a
cycle; every group left out has a count no larger than any returned group's;
and any key not among the cycle's updates keeps its previous registry value
unchanged. -/
theorem conn_count_top20 (cloudName originPrometheus : String)
    (groups : List ConnRow) (reg : Registry) (k : MetricKey) :
    (connQueryRows groups).length ≤ 20 ∧
    collectConnCountUpdates cloudName originPrometheus
        (.ok ((connQueryRows groups).map some)) =
      (connQueryRows groups).map (connRowUpdate cloudName originPrometheus) ∧
    (collectConnCountUpdates cloudName originPrometheus
        (.ok ((connQueryRows groups).map some))).length ≤ 20 ∧
    (∀ r : ConnRow, connRowUpdate cloudName originPrometheus r =
      ⟨⟨"mysql_conn_count", ["cloud_name", "user", "db", "origin_prometheus"],
        [cloudName, r.userName.getD "UNKNOWN_USER", r.dbName.getD "UNKNOWN_DB",
         originPrometheus]⟩, (r.count : ℚ)⟩) ∧
    (∀ x ∈ connQueryRows groups, ∀ y ∈ groups, y ∉ connQueryRows groups →
      y.count ≤ x.count) ∧
    (k ∉ (collectConnCountUpdates cloudName originPrometheus
          (.ok ((connQueryRows groups).map some))).map (fun u => u.key) →
      applyUpdates reg (collectConnCountUpdates cloudName originPrometheus
          (.ok ((connQueryRows groups).map some))) k = reg k) := by
  refine ⟨List.length_take_le 20 _, connCollect_map_some cloudName originPrometheus _,
    ?_, fun r => rfl, ?_, fun h => applyUpdates_apply_of_not_mem h reg⟩
  · rw [connCollect_map_some, List.length_map]
    exact List.length_take_le 20 _
  · intro x hx y hy hyn
    have hpw := pairwise_sortConnRowsDesc groups
    have hys : y ∈ sortConnRowsDesc groups := mem_sortConnRowsDesc.2 hy
    rw [← List.take_append_drop 20 (sortConnRowsDesc groups)] at hys hpw
    rcases List.mem_append.1 hys with hyt | hyd
    · exact absurd hyt hyn
    · exact (List.pairwise_append.1 hpw).2.2 x hx y hyd

/-- C7 witness: with 25 groups of counts 1..25, a dropped group (count 1) has
a count no larger than a returned one (count 25), and an untouched key keeps
its (absent) registry state. -/
theorem conn_count_top20_witness :
    ((⟨some "db", some "u", 1⟩ : ConnRow).count ≤
      (⟨some "db", some "u", 25⟩ : ConnRow).count) ∧
    applyUpdates emptyRegistry
        (collectConnCountUpdates "c" "o"
          (.ok ((connQueryRows top20ScenarioGroups).map some)))
        ⟨"mysql_conn_count", connCountLabelNames, ["c", "nobody", "nodb", "o"]⟩ =
      emptyRegistry ⟨"mysql_conn_count", connCountLabelNames, ["c", "nobody", "nodb", "o"]⟩ :=
  ⟨(conn_count_top20 "c" "o" top20ScenarioGroups emptyRegistry
      ⟨"mysql_conn_count", connCountLabelNames, ["c", "nobody", "nodb", "o"]⟩).2.2.2.2.1
      ⟨some "db", some "u", 25⟩ (by decide) ⟨some "db", some "u", 1⟩ (by decide) (by decide),
   (conn_count_top20 "c" "o" top20ScenarioGroups emptyRegistry
      ⟨"mysql_conn_count", connCountLabelNames, ["c", "nobody", "nodb", "o"]⟩).2.2.2.2.2
      (by decide)⟩
